import Mathlib

set_option autoImplicit false

namespace WeatherUtil

/-!
Shallow embedding of the core of `weather_util_rust`: validated quantity
types, the `Angle` degree/minute/second representation, and the forecast
aggregation (`get_high_low`) together with the current-conditions report
formatter.  `f64` values that only flow through sign/range comparisons are
modelled by the type `F` below (rationals extended with `NaN` and the two
infinities, with IEEE comparison semantics); `f64` values that take part in
exact arithmetic are modelled by `ℚ`.
-/

/-- Model of the `f64` values relevant to range validation: a rational
magnitude, `NaN`, `+∞` or `-∞`. -/
inductive F where
  | nan : F
  | inf : F
  | ninf : F
  | finite (q : ℚ) : F
deriving DecidableEq

/-- IEEE `<` on modelled `f64` values: every comparison involving `NaN` is
false; `-∞` is below everything else; `+∞` is above everything else. -/
def flt : F → F → Bool
  | F.nan, _ => false
  | _, F.nan => false
  | F.ninf, F.ninf => false
  | F.ninf, _ => true
  | _, F.ninf => false
  | F.inf, _ => false
  | F.finite _, F.inf => true
  | F.finite a, F.finite b => decide (a < b)

/-- IEEE `<=` on modelled `f64` values. -/
def fle : F → F → Bool
  | F.nan, _ => false
  | _, F.nan => false
  | F.ninf, _ => true
  | _, F.ninf => false
  | _, F.inf => true
  | F.inf, F.finite _ => false
  | F.finite a, F.finite b => decide (a ≤ b)

/-- IEEE `>=`, written in terms of `<=` with the arguments swapped. -/
def fge (a b : F) : Bool := fle b a

/-- IEEE addition on modelled `f64` values (no rounding: finite values are
exact rationals).  `∞ + (-∞)` is `NaN`; `NaN` propagates. -/
def fadd : F → F → F
  | F.nan, _ => F.nan
  | _, F.nan => F.nan
  | F.inf, F.ninf => F.nan
  | F.ninf, F.inf => F.nan
  | F.inf, _ => F.inf
  | _, F.inf => F.inf
  | F.ninf, _ => F.ninf
  | _, F.ninf => F.ninf
  | F.finite a, F.finite b => F.finite (a + b)

/-- Model of the crate's error values; the claims only depend on which
branch (`Ok` / `Err`) is taken, not on the message text. -/
inductive Err where
  | invalidValue : Err
deriving DecidableEq

/-- Precipitation in mm (`src/precipitation.rs`); the newtype stores the raw
`f64`. -/
structure Precipitation where
  mm : F
deriving DecidableEq

/-- Embeds `TryFrom<f64> for Precipitation`: rejects exactly the values for
which `item < 0.0` holds. -/
def Precipitation.try_from (item : F) : Except Err Precipitation :=
  if flt item (F.finite 0) then Except.error Err.invalidValue
  else Except.ok ⟨item⟩

/-- Accessor `Precipitation::millimeters` returns the stored value. -/
def Precipitation.millimeters (p : Precipitation) : F := p.mm

/-- Embeds the derived `Add for Precipitation`: addition of the stored raw
values. -/
def Precipitation.add (a b : Precipitation) : Precipitation :=
  ⟨fadd a.mm b.mm⟩

/-- A `Precipitation` value is valid when `try_from` accepts its stored
value, i.e. the re-validation predicate of the crate holds. -/
def Precipitation.valid (p : Precipitation) : Prop :=
  flt p.mm (F.finite 0) = false

/-- Distance in meters (`src/distance.rs`). -/
structure Distance where
  meters : F
deriving DecidableEq

/-- Embeds `TryFrom<f64> for Distance`: accepts exactly the values for which
`item >= 0.0` holds. -/
def Distance.try_from (item : F) : Except Err Distance :=
  if fge item (F.finite 0) then Except.ok ⟨item⟩
  else Except.error Err.invalidValue

/-- Latitude in degrees (`src/latitude.rs`); the newtype stores the raw
`f64`. -/
structure Latitude where
  value : F
deriving DecidableEq

/-- Embeds `TryFrom<f64> for Latitude`: accepts exactly the values for which
`item >= -90.0 && item <= 90.0` holds, storing the value unchanged. -/
def Latitude.try_from (item : F) : Except Err Latitude :=
  if fge item (F.finite (-90)) && fle item (F.finite 90) then Except.ok ⟨item⟩
  else Except.error Err.invalidValue

/-- TimeZone as seconds from UTC (`src/timezone.rs`, stored `i32`). -/
structure TimeZone where
  seconds : ℤ
deriving DecidableEq

/-- Embeds `TryFrom<i32> for TimeZone`: accepts exactly
`item > -86400 && item < 86400`. -/
def TimeZone.try_from (item : ℤ) : Except Err TimeZone :=
  if -86400 < item ∧ item < 86400 then Except.ok ⟨item⟩
  else Except.error Err.invalidValue

/-- Fixed offset from UTC, in seconds. -/
structure UtcOffset where
  seconds : ℤ
deriving DecidableEq

/-- Modelled from the spec: `UtcOffset::from_whole_seconds` belongs to the
external `time` crate, not to this repository.  Per that crate's contract a
whole-second offset is accepted exactly when its magnitude is strictly less
than one day (at most `86399` seconds); out-of-range values produce a
component-range error. -/
def UtcOffset.from_whole_seconds (s : ℤ) : Except Err UtcOffset :=
  if -86399 ≤ s ∧ s ≤ 86399 then Except.ok ⟨s⟩
  else Except.error Err.invalidValue

/-- Angle decomposed into degree/minute/second/sub-second parts
(`src/angle.rs`: fields `degree: i16`, `minute: u8`, `second: u8`,
`subsec: f32`).  The sub-second part is modelled exactly by a rational. -/
structure Angle where
  degree : ℤ
  minute : ℕ
  second : ℕ
  subsec : ℚ
deriving DecidableEq

/-- Rust's `%` on the non-negative `f64` dividends used by `Angle`, in exact
arithmetic: for `0 ≤ a` and `0 < b`, `a % b = a - b * ⌊a / b⌋` (truncating
and flooring division agree on non-negative operands). -/
def fmod (a b : ℚ) : ℚ := a - b * ⌊a / b⌋

/-- Embeds `Angle::from_deg`.  Each `let` mirrors one line of the source;
the cast `abs_deg as i16` truncates toward zero, which on the non-negative
`abs_deg` is the floor, and the `u8` casts of the non-negative `minute` and
`sec` values are `Int.toNat` of their floors. -/
def Angle.from_deg (deg : ℚ) : Angle :=
  let sign : ℤ := if 0 ≤ deg then 1 else -1
  let abs_deg : ℚ := fmod |deg| 360
  let abs_degree : ℚ := ⌊abs_deg⌋
  let minute : ℚ := ⌊fmod (abs_deg * 60 - abs_degree * 60) 60⌋
  let sec : ℚ := fmod (abs_deg * 3600 - minute * 60 - abs_degree * 3600) 60
  { degree := sign * ⌊abs_deg⌋
    minute := (⌊minute⌋).toNat
    second := (⌊sec⌋).toNat
    subsec := sec - ⌊sec⌋ }

/-- Embeds `Angle::sign`: `1` when the stored degree is non-negative,
`-1` otherwise. -/
def Angle.signum (a : Angle) : ℤ := if 0 ≤ a.degree then 1 else -1

/-- Embeds `Angle::deg`: reassembles the decimal degrees from the stored
fields. -/
def Angle.deg (a : Angle) : ℚ :=
  (a.signum : ℚ) *
    (|a.degree| + (a.minute : ℚ) / 60 + (a.second : ℚ) / 3600 + a.subsec / 3600)

/-- Embeds `PartialEq for Angle`: compares the difference of the signed
degree fields modulo 360 (Rust `%` on `i16`, i.e. truncating remainder)
together with the minute and second fields. -/
def Angle.eq (a b : Angle) : Bool :=
  (Int.tmod (a.degree - b.degree) 360 == 0) &&
    (a.minute == b.minute) && (a.second == b.second)

/-- One weather condition record (`src/weather_data.rs`, `WeatherCond`). -/
structure WeatherCond where
  id : ℕ
  main : String
  description : String
  icon : String
deriving DecidableEq

/-- Rain record: optional three-hour precipitation in mm, modelled by its
rational magnitude (`src/weather_data.rs`, `Rain`). -/
structure Rain where
  three_hour : Option ℚ
deriving DecidableEq

/-- Snow record, same shape as `Rain` (`src/weather_data.rs`, `Snow`). -/
structure Snow where
  three_hour : Option ℚ
deriving DecidableEq

/-- Forecast sample numeric block (`src/weather_forecast.rs`,
`ForecastMain`); temperatures and pressures are modelled by their rational
magnitudes, humidity by its integer percent. -/
structure ForecastMain where
  temp : ℚ
  feels_like : ℚ
  temp_min : ℚ
  temp_max : ℚ
  pressure : ℚ
  sea_level : ℚ
  grnd_level : ℚ
  humidity : ℤ
deriving DecidableEq

/-- One forecast sample (`src/weather_forecast.rs`, `ForecastEntry`); `dt`
is the UTC instant as unix seconds. -/
structure ForecastEntry where
  dt : ℤ
  main : ForecastMain
  weather : List WeatherCond
  rain : Option Rain
  snow : Option Snow
deriving DecidableEq

/-- City block of a forecast response (`src/weather_forecast.rs`,
`CityEntry`); the timezone is the UTC offset in seconds. -/
structure CityEntry where
  timezone : ℤ
  sunrise : ℤ
  sunset : ℤ
deriving DecidableEq

/-- A whole forecast response (`src/weather_forecast.rs`,
`WeatherForecast`). -/
structure WeatherForecast where
  list : List ForecastEntry
  city : CityEntry
deriving DecidableEq

/-- Value stored per local calendar date by `get_high_low`:
(high, low, rain, snow, icon set). -/
abbrev DaySummary := ℚ × ℚ × ℚ × ℚ × Finset String

/-- Embeds `entry.dt.to_offset(fo).date()`: the local calendar date of a
unix instant under a fixed offset, identified with its day number (floor of
the local second count divided by 86400; calendar rendering of the day is
irrelevant to the claims, only identity and order of dates matter). -/
def localDate (offset : ℤ) (dt : ℤ) : ℤ := (dt + offset).fdiv 86400

/-- Lookup in the model of `BTreeMap<Date, DaySummary>` (a list of
key-value pairs kept sorted by key): `BTreeMap::get`. -/
def btreeGet (date : ℤ) : List (ℤ × DaySummary) → Option DaySummary
  | [] => none
  | (k, v) :: t => if date = k then some v else btreeGet date t

/-- Insert-or-replace in the sorted-list model of the `BTreeMap`:
`BTreeMap::insert`. -/
def btreeInsert (date : ℤ) (v : DaySummary) :
    List (ℤ × DaySummary) → List (ℤ × DaySummary)
  | [] => [(date, v)]
  | (k, w) :: t =>
    if date < k then (date, v) :: (k, w) :: t
    else if date = k then (date, v) :: t
    else (k, w) :: btreeInsert date v t

/-- Body of the fold inside `WeatherForecast::get_high_low`
(`src/weather_forecast.rs` lines 120-155), one forecast entry at a time.
The icon loop of the source inserts every already-present icon that the
sample's set lacks, i.e. it forms the union of the sample's icon set with
the existing one. -/
def get_high_low_step (offset : ℤ) (hmap : List (ℤ × DaySummary))
    (entry : ForecastEntry) : List (ℤ × DaySummary) :=
  let date := localDate offset entry.dt
  let high := entry.main.temp_max
  let low := entry.main.temp_min
  let rain : ℚ :=
    match entry.rain with
    | some rain => rain.three_hour.getD 0
    | none => 0
  let snow : ℚ :=
    match entry.snow with
    | some snow => snow.three_hour.getD 0
    | none => 0
  let icons : Finset String := (entry.weather.map (fun w => w.icon)).toFinset
  match btreeGet date hmap with
  | some (h, l, r, s, i) =>
    let high := if high > h then high else h
    let low := if low < l then low else l
    let rain := r + rain
    let snow := s + snow
    let icons := icons ∪ i
    if (high, low) ≠ (h, l) then btreeInsert date (high, low, rain, snow, icons) hmap
    else hmap
  | none => btreeInsert date (high, low, rain, snow, icons) hmap

/-- Embeds `WeatherForecast::get_high_low`: fold the entry list into the
per-local-date summary map, using the city's fixed UTC offset. -/
def get_high_low (wf : WeatherForecast) : List (ℤ × DaySummary) :=
  wf.list.foldl (get_high_low_step wf.city.timezone) []

/-- Option-valued maximum, used to state what `get_high_low` computes for
the high temperature of a day. -/
def omax : Option ℚ → Option ℚ → Option ℚ
  | none, b => b
  | some a, none => some a
  | some a, some b => some (max a b)

/-- Option-valued minimum. -/
def omin : Option ℚ → Option ℚ → Option ℚ
  | none, b => b
  | some a, none => some a
  | some a, some b => some (min a b)

/-- Specification value: the maximum of `temp_max` over the samples falling
on local date `d` (`none` when the date has no sample). -/
def dayHigh (offset d : ℤ) (l : List ForecastEntry) : Option ℚ :=
  l.foldl
    (fun acc e => omax acc (if localDate offset e.dt = d then some e.main.temp_max else none))
    none

/-- Specification value: the minimum of `temp_min` over the samples falling
on local date `d`. -/
def dayLow (offset d : ℤ) (l : List ForecastEntry) : Option ℚ :=
  l.foldl
    (fun acc e => omin acc (if localDate offset e.dt = d then some e.main.temp_min else none))
    none

/-- Coordinates of a current-conditions record (`src/weather_data.rs`,
`Coord`); latitude and longitude modelled by their rational magnitudes. -/
structure Coord where
  lon : ℚ
  lat : ℚ
deriving DecidableEq

/-- Numeric block of a current-conditions record (`src/weather_data.rs`,
`WeatherMain`). -/
structure WeatherMain where
  temp : ℚ
  feels_like : ℚ
  temp_min : ℚ
  temp_max : ℚ
  pressure : ℚ
  humidity : ℤ
deriving DecidableEq

/-- Wind block (`src/weather_data.rs`, `Wind`); the optional direction holds
the normalized bearing value stored by `Direction`. -/
structure Wind where
  speed : ℚ
  deg : Option ℚ
deriving DecidableEq

/-- Sys block (`src/weather_data.rs`, `Sys`). -/
structure Sys where
  country : Option String
  sunrise : ℤ
  sunset : ℤ
deriving DecidableEq

/-- A full current-conditions record (`src/weather_data.rs`,
`WeatherData`). -/
structure WeatherData where
  coord : Coord
  weather : List WeatherCond
  base : String
  main : WeatherMain
  visibility : Option ℚ
  wind : Wind
  rain : Option Rain
  snow : Option Snow
  dt : ℤ
  sys : Sys
  timezone : ℤ
  name : String

/-- Embeds `Temperature::fahrenheit`: `kelvin * 1.8 - 459.67`. -/
def fahrenheit (t : ℚ) : ℚ := t * (9 / 5) - 45967 / 100

/-- Embeds `Temperature::celcius` (source spelling): `kelvin - 273.15`. -/
def celcius (t : ℚ) : ℚ := t - 27315 / 100

/-- Embeds `Speed::mph`: `mps * 3600.0 / 1609.344`. -/
def mph (s : ℚ) : ℚ := s * 3600 / (1609344 / 1000)

/-- Embeds `Precipitation::inches`: `mm / 25.4`. -/
def inches (p : ℚ) : ℚ := p / (127 / 5)

/-- Models the external `Display` rendering of a numeric value (Rust's
float/integer formatting lives outside this repository); the claims depend
only on the report's structure, never on the rendered digits. -/
def fmtQ (q : ℚ) : String := toString q.num ++ "/" ++ toString q.den

/-- Models the external `Display` rendering of an `OffsetDateTime`; the
local instant is determined by the unix seconds plus the offset. -/
def fmtDateTime (t : ℤ) : String := toString t

/-- The conditions fragment of the report: embeds
`self.weather.get(0).map_or_else(|| "", |w| &w.description)`
(`src/weather_data.rs` line 185): the first entry's description, or the
empty string when the list is empty. -/
def conditionsStr (data : WeatherData) : String :=
  (data.weather.head?.map (fun w => w.description)).getD ""

/-- The full report text with the conditions description passed explicitly;
each `++` group mirrors one `write!`/`writeln!` of
`WeatherData::get_current_conditions`. -/
def reportText (data : WeatherData) (conditions : String) : String :=
  "Current conditions "
    ++ (match data.sys.country with
        | some country => data.name ++ " " ++ country ++ " "
        | none => "")
    ++ fmtQ data.coord.lat ++ "N " ++ fmtQ data.coord.lon ++ "E\n"
    ++ "Last Updated " ++ fmtDateTime (data.dt + data.timezone) ++ "\n"
    ++ "\tTemperature: " ++ fmtQ (fahrenheit data.main.temp)
    ++ " F (" ++ fmtQ (celcius data.main.temp) ++ " C)\n"
    ++ "\tRelative Humidity: " ++ toString data.main.humidity ++ "%\n"
    ++ "\tWind: " ++ fmtQ (data.wind.deg.getD 0)
    ++ " degrees at " ++ fmtQ (mph data.wind.speed) ++ " mph\n"
    ++ "\tConditions: " ++ conditions ++ "\n"
    ++ "\tSunrise: " ++ fmtDateTime (data.sys.sunrise + data.timezone) ++ "\n"
    ++ "\tSunset: " ++ fmtDateTime (data.sys.sunset + data.timezone)
    ++ (match data.rain with
        | some rain => "\n\tRain: " ++ fmtQ ((rain.three_hour.map inches).getD 0) ++ " in"
        | none => "")
    ++ (match data.snow with
        | some snow => "\n\tSnow: " ++ fmtQ ((snow.three_hour.map inches).getD 0) ++ " in"
        | none => "")
    ++ "\n"

/-- Embeds `WeatherData::get_current_conditions`: the report text with the
conditions slot filled from the weather-description list. -/
def get_current_conditions (data : WeatherData) : String :=
  reportText data (conditionsStr data)

/-- Concrete forecast sample block with given max/min temperatures and all
other fields zero, for the concrete aggregation inputs below. -/
def mainWith (tmax tmin : ℚ) : ForecastMain :=
  { temp := 0, feels_like := 0, temp_min := tmin, temp_max := tmax
    pressure := 0, sea_level := 0, grnd_level := 0, humidity := 0 }

/-- First sample of the dropped-accumulation input: midnight UTC, high 10,
low 2, no rain, icon `04n`. -/
def entryA : ForecastEntry :=
  { dt := 0, main := mainWith 10 2
    weather := [{ id := 803, main := "Clouds", description := "broken clouds", icon := "04n" }]
    rain := none, snow := none }

/-- Second sample of the dropped-accumulation input: same local date and the
same temperatures as `entryA`, but carrying 5 mm of rain and icon `02n`. -/
def entryB : ForecastEntry :=
  { dt := 3600, main := mainWith 10 2
    weather := [{ id := 801, main := "Clouds", description := "few clouds", icon := "02n" }]
    rain := some ⟨some 5⟩, snow := none }

/-- Three same-day samples with `temp_max` 10, 15, 12 and `temp_min`
2, 5, 1, as in the aggregation example of the spec. -/
def threeSampleForecast : WeatherForecast :=
  { list :=
      [ { dt := 0, main := mainWith 10 2, weather := [], rain := none, snow := none }
      , { dt := 3600, main := mainWith 15 5, weather := [], rain := none, snow := none }
      , { dt := 7200, main := mainWith 12 1, weather := [], rain := none, snow := none } ]
    city := { timezone := 0, sunrise := 0, sunset := 0 } }

/-- A well-formed current-conditions record whose weather-description list
is empty, for the formatter edge case. -/
def emptyWeatherData : WeatherData :=
  { coord := { lon := 0, lat := 0 }
    weather := []
    base := "stations"
    main := { temp := 280, feels_like := 280, temp_min := 280, temp_max := 280
              pressure := 1000, humidity := 50 }
    visibility := none
    wind := { speed := 1, deg := none }
    rain := none, snow := none
    dt := 0
    sys := { country := none, sunrise := 0, sunset := 0 }
    timezone := 0
    name := "Nowhere" }

/-- Evaluation helper: the floor of a rational bracketed by an integer. -/
theorem floor_eval {q : ℚ} (n : ℤ) (h1 : (n : ℚ) ≤ q) (h2 : q < n + 1) : ⌊q⌋ = n :=
  Int.floor_eq_iff.mpr ⟨h1, h2⟩

/-- Evaluation helper: computing `fmod` from the floor of the quotient. -/
theorem fmod_eval {a b r : ℚ} (k : ℤ) (hk : ⌊a / b⌋ = k) (hr : a - b * k = r) :
    fmod a b = r := by
  unfold fmod
  rw [hk]
  exact hr

/-- Evaluation helper: `fmod` is the identity below the modulus. -/
theorem fmod_small {a b : ℚ} (h0 : 0 ≤ a) (hab : a < b) : fmod a b = a := by
  have hb : 0 < b := lt_of_le_of_lt h0 hab
  have hk : ⌊a / b⌋ = 0 := by
    refine floor_eval 0 ?_ ?_
    · exact_mod_cast div_nonneg h0 hb.le
    · push_cast
      rw [zero_add]
      exact (div_lt_one hb).mpr hab
  refine fmod_eval 0 hk ?_
  push_cast
  ring

/-- Evaluation helper: the fields of `Angle.from_deg d` from the values of
the intermediate floors and remainders. -/
theorem from_deg_eq (d A s0 : ℚ) (D M S : ℤ)
    (hA : fmod |d| 360 = A)
    (hD : ⌊A⌋ = D)
    (hM : ⌊fmod (A * 60 - (D : ℚ) * 60) 60⌋ = M)
    (hs0 : fmod (A * 3600 - (M : ℚ) * 60 - (D : ℚ) * 3600) 60 = s0)
    (hS : ⌊s0⌋ = S) :
    Angle.from_deg d =
      ⟨(if 0 ≤ d then 1 else -1) * D, M.toNat, S.toNat, s0 - (S : ℚ)⟩ := by
  simp only [Angle.from_deg]
  rw [hA, hD, hM, Int.floor_intCast, hs0, hS]

/-- C5: refuted at concrete inputs — `Precipitation::try_from` accepts both
`NaN` and `+∞` (its guard `item < 0.0` is false for both), and
`Distance::try_from` accepts `+∞` (its guard `item >= 0.0` holds), while the
claim demands a range-violation error for every `NaN` or infinite input;
only `Distance::try_from(NaN)` errs as claimed. -/
theorem C5_nonfinite_accepted :
    (Precipitation.try_from F.nan).isOk = true ∧
      (Precipitation.try_from F.inf).isOk = true ∧
      (Distance.try_from F.inf).isOk = true ∧
      (Distance.try_from F.nan).isOk = false := by
  decide

/-- C6 counterexample: `Latitude::try_from(90.0)` succeeds, although the
claim states that exactly `90.0` fails. -/
theorem C6_ninety_accepted :
    (Latitude.try_from (F.finite 90)).isOk = true := by
  decide

/-- C6 (amended): latitude construction from a finite value succeeds, and
stores the value unchanged, exactly when the value lies in the closed
interval `[-90, 90]`; every non-finite input — `NaN`, `+∞` and `-∞` — fails
(each falsifies one of the IEEE comparisons of the guard). -/
theorem C6_closed_interval :
    (∀ q : ℚ, Latitude.try_from (F.finite q) = Except.ok ⟨F.finite q⟩ ↔ -90 ≤ q ∧ q ≤ 90) ∧
      (Latitude.try_from F.nan).isOk = false ∧
      (Latitude.try_from F.inf).isOk = false ∧
      (Latitude.try_from F.ninf).isOk = false := by
  refine ⟨fun q => ?_, by decide, by decide, by decide⟩
  by_cases h1 : -90 ≤ q <;> by_cases h2 : q ≤ 90 <;>
    simp [Latitude.try_from, fge, fle, h1, h2]

/-- C9: adding two validly constructed precipitation values yields a value
that again satisfies the constructor's validity predicate, and whose stored
millimeters are the sum of the operands' millimeters. -/
theorem C9_add_valid (a b : Precipitation) (ha : a.valid) (hb : b.valid) :
    (Precipitation.add a b).valid ∧
      (Precipitation.add a b).millimeters = fadd a.millimeters b.millimeters := by
  refine ⟨?_, rfl⟩
  obtain ⟨x⟩ := a
  obtain ⟨y⟩ := b
  unfold Precipitation.valid Precipitation.add at *
  cases x <;> cases y <;> simp_all [fadd, flt]
  linarith

/-- C9 witness at 1 mm and 5/2 mm. -/
theorem C9_add_valid_witness :
    (Precipitation.add ⟨F.finite 1⟩ ⟨F.finite (5 / 2)⟩).valid ∧
      (Precipitation.add ⟨F.finite 1⟩ ⟨F.finite (5 / 2)⟩).millimeters =
        fadd (Precipitation.millimeters ⟨F.finite 1⟩)
          (Precipitation.millimeters ⟨F.finite (5 / 2)⟩) :=
  C9_add_valid ⟨F.finite 1⟩ ⟨F.finite (5 / 2)⟩
    (by norm_num [Precipitation.valid, flt]) (by norm_num [Precipitation.valid, flt])

/-- C10: every timezone accepted by `TimeZone::try_from` lies inside the
domain of `UtcOffset::from_whole_seconds`, so the conversion always takes
the `Ok` branch and the `unreachable!()` arm cannot execute. -/
theorem C10_offset_conversion_ok (item : ℤ) (z : TimeZone)
    (h : TimeZone.try_from item = Except.ok z) :
    (UtcOffset.from_whole_seconds z.seconds).isOk = true := by
  unfold TimeZone.try_from at h
  split at h
  case isTrue hc =>
    obtain rfl : TimeZone.mk item = z := by cases h; rfl
    show (UtcOffset.from_whole_seconds item).isOk = true
    unfold UtcOffset.from_whole_seconds
    rw [if_pos (by omega)]
    rfl
  case isFalse => exact (Except.noConfusion h)

/-- C10 witness at a +4 h offset. -/
theorem C10_offset_conversion_ok_witness :
    (UtcOffset.from_whole_seconds (TimeZone.mk 14400).seconds).isOk = true :=
  C10_offset_conversion_ok 14400 ⟨14400⟩ rfl

/-- C1: refuted at a concrete input — two samples on the same local date
with identical `temp_max`/`temp_min`, the second carrying 5 mm of rain and
icon `02n`.  Because the second sample changes neither the high nor the low,
the updated bucket is never written back: the day keeps rain 0 and icon set
`{04n}` instead of the claimed rain `0 + 5` and icons `{04n} ∪ {02n}`. -/
theorem C1_accumulation_dropped :
    btreeGet 0 (get_high_low ⟨[entryA, entryB], ⟨0, 0, 0⟩⟩)
        = some (10, 2, 0, 0, {"04n"}) ∧
      btreeGet 0 (get_high_low ⟨[entryA, entryB], ⟨0, 0, 0⟩⟩)
          ≠ some (10, 2, 0 + 5, 0, {"04n", "02n"}) := by
  have hget : btreeGet 0 (get_high_low ⟨[entryA, entryB], ⟨0, 0, 0⟩⟩)
      = some (10, 2, 0, 0, {"04n"}) := by
    simp only [get_high_low, get_high_low_step, entryA, entryB, mainWith, localDate,
      btreeGet, btreeInsert, List.foldl_cons, List.foldl_nil, List.map_cons,
      List.map_nil, List.toFinset_cons, List.toFinset_nil]
    norm_num
  refine ⟨hget, ?_⟩
  rw [hget]
  intro hc
  simp only [Option.some.injEq, Prod.mk.injEq] at hc
  obtain ⟨-, -, h5, -⟩ := hc
  norm_num at h5

/-- C3: refuted at `d = -1/2` — the round trip returns `+1/2` for the input
`-1/2` (the sign is stored only in the integral degree field, which is `0`
here), an error of `1`, far above the claimed `1e-5` tolerance on the
sign-adjusted reduction `-1/2`. -/
theorem C3_round_trip_sign_lost :
    Angle.deg (Angle.from_deg (-(1 : ℚ) / 2)) = 1 / 2 ∧
      ¬ |Angle.deg (Angle.from_deg (-(1 : ℚ) / 2)) - (-(1 : ℚ) / 2)| ≤ 1 / 100000 := by
  have hA : fmod |(-(1 : ℚ) / 2)| 360 = 1 / 2 := by
    rw [abs_of_neg (by norm_num : (-(1 : ℚ) / 2) < 0)]
    rw [show -(-(1 : ℚ) / 2) = 1 / 2 by norm_num]
    exact fmod_small (by norm_num) (by norm_num)
  have hD : ⌊(1 : ℚ) / 2⌋ = 0 := floor_eval 0 (by norm_num) (by norm_num)
  have hMi : fmod ((1 : ℚ) / 2 * 60 - ((0 : ℤ) : ℚ) * 60) 60 = 30 := by
    rw [show (1 : ℚ) / 2 * 60 - ((0 : ℤ) : ℚ) * 60 = 30 by push_cast; ring]
    exact fmod_small (by norm_num) (by norm_num)
  have hM : ⌊fmod ((1 : ℚ) / 2 * 60 - ((0 : ℤ) : ℚ) * 60) 60⌋ = 30 := by
    rw [hMi]; exact floor_eval 30 (by norm_num) (by norm_num)
  have hsi : fmod ((1 : ℚ) / 2 * 3600 - ((30 : ℤ) : ℚ) * 60 - ((0 : ℤ) : ℚ) * 3600) 60 = 0 := by
    rw [show (1 : ℚ) / 2 * 3600 - ((30 : ℤ) : ℚ) * 60 - ((0 : ℤ) : ℚ) * 3600 = 0 by
      push_cast; ring]
    exact fmod_small (by norm_num) (by norm_num)
  have hS : ⌊(0 : ℚ)⌋ = 0 := Int.floor_zero
  have hfd : Angle.from_deg (-(1 : ℚ) / 2) = ⟨0, 30, 0, 0⟩ := by
    rw [from_deg_eq (-(1 : ℚ) / 2) (1 / 2) 0 0 30 0 hA hD hM hsi hS]
    norm_num
    decide
  have hdg : Angle.deg (⟨0, 30, 0, 0⟩ : Angle) = 1 / 2 := by
    norm_num [Angle.deg, Angle.signum]
  constructor
  · rw [hfd, hdg]
  · rw [hfd, hdg]
    rw [show |(1 : ℚ) / 2 - (-(1 : ℚ) / 2)| = 1 by
      rw [abs_of_nonneg (by norm_num : (0 : ℚ) ≤ 1 / 2 - (-(1 : ℚ) / 2))]; norm_num]
    norm_num

/-- C4: the equality rule does make `from_deg(90)` equal `from_deg(450)`,
but it is refuted for `d = -90.5`: `from_deg(-90.5)` has degree `-90` and
`from_deg(269.5)` has degree `269`; their difference `-359` is not a
multiple of 360, so two representations of the same rotational position
compare unequal. -/
theorem C4_rotational_eq_fails_for_fractional_negative :
    Angle.eq (Angle.from_deg 90) (Angle.from_deg 450) = true ∧
      Angle.eq (Angle.from_deg (-(181 : ℚ) / 2))
          (Angle.from_deg (-(181 : ℚ) / 2 + 360)) = false := by
  have hzero : ∀ x : ℚ, x = 0 → fmod x 60 = 0 := by
    intro x hx
    rw [hx]
    exact fmod_small le_rfl (by norm_num)
  have h90 : Angle.from_deg (90 : ℚ) = ⟨90, 0, 0, 0⟩ := by
    rw [from_deg_eq (90 : ℚ) 90 0 90 0 0
      (by rw [abs_of_nonneg (by norm_num : (0 : ℚ) ≤ 90)]
          exact fmod_small (by norm_num) (by norm_num))
      (floor_eval 90 (by norm_num) (by norm_num))
      (by rw [hzero _ (by push_cast; ring)]; exact Int.floor_zero)
      (hzero _ (by push_cast; ring))
      Int.floor_zero]
    norm_num
  have h450 : Angle.from_deg (450 : ℚ) = ⟨90, 0, 0, 0⟩ := by
    rw [from_deg_eq (450 : ℚ) 90 0 90 0 0
      (by rw [abs_of_nonneg (by norm_num : (0 : ℚ) ≤ 450)]
          exact fmod_eval 1 (floor_eval 1 (by norm_num) (by norm_num)) (by norm_num))
      (floor_eval 90 (by norm_num) (by norm_num))
      (by rw [hzero _ (by push_cast; ring)]; exact Int.floor_zero)
      (hzero _ (by push_cast; ring))
      Int.floor_zero]
    norm_num
  have hneg : Angle.from_deg (-(181 : ℚ) / 2) = ⟨-90, 30, 0, 0⟩ := by
    rw [from_deg_eq (-(181 : ℚ) / 2) (181 / 2) 0 90 30 0
      (by rw [abs_of_neg (by norm_num : (-(181 : ℚ) / 2) < 0)]
          rw [show -(-(181 : ℚ) / 2) = 181 / 2 by norm_num]
          exact fmod_small (by norm_num) (by norm_num))
      (floor_eval 90 (by norm_num) (by norm_num))
      (by rw [show (181 : ℚ) / 2 * 60 - ((90 : ℤ) : ℚ) * 60 = 30 by push_cast; ring]
          rw [fmod_small (by norm_num) (by norm_num)]
          exact floor_eval 30 (by norm_num) (by norm_num))
      (by rw [show (181 : ℚ) / 2 * 3600 - ((30 : ℤ) : ℚ) * 60 - ((90 : ℤ) : ℚ) * 3600 = 0 by
            push_cast; ring]
          exact fmod_small le_rfl (by norm_num))
      Int.floor_zero]
    norm_num
    decide
  have hpos : Angle.from_deg (-(181 : ℚ) / 2 + 360) = ⟨269, 30, 0, 0⟩ := by
    rw [from_deg_eq (-(181 : ℚ) / 2 + 360) (539 / 2) 0 269 30 0
      (by rw [abs_of_nonneg (by norm_num : (0 : ℚ) ≤ -(181 : ℚ) / 2 + 360)]
          rw [show -(181 : ℚ) / 2 + 360 = 539 / 2 by norm_num]
          exact fmod_small (by norm_num) (by norm_num))
      (floor_eval 269 (by norm_num) (by norm_num))
      (by rw [show (539 : ℚ) / 2 * 60 - ((269 : ℤ) : ℚ) * 60 = 30 by push_cast; ring]
          rw [fmod_small (by norm_num) (by norm_num)]
          exact floor_eval 30 (by norm_num) (by norm_num))
      (by rw [show (539 : ℚ) / 2 * 3600 - ((30 : ℤ) : ℚ) * 60 - ((269 : ℤ) : ℚ) * 3600 = 0 by
            push_cast; ring]
          exact fmod_small le_rfl (by norm_num))
      Int.floor_zero]
    norm_num
    decide
  rw [h90, h450, hneg, hpos]
  constructor
  · decide
  · decide

/-- C8: for every record whose weather-description list is empty, the
conditions fragment is the empty string and the formatter still produces the
full report with that empty string substituted (the source reads the list
with `get(0)`, which yields `None` rather than indexing out of bounds; the
embedding is total, so no panic is possible). -/
theorem C8_empty_weather_substitutes_empty (data : WeatherData)
    (h : data.weather = []) :
    conditionsStr data = "" ∧ get_current_conditions data = reportText data "" := by
  have hc : conditionsStr data = "" := by
    unfold conditionsStr
    rw [h]
    rfl
  exact ⟨hc, by unfold get_current_conditions; rw [hc]⟩

/-- C8 witness on a concrete record with an empty weather list. -/
theorem C8_empty_weather_witness :
    conditionsStr emptyWeatherData = "" ∧
      get_current_conditions emptyWeatherData = reportText emptyWeatherData "" :=
  C8_empty_weather_substitutes_empty emptyWeatherData rfl

/-- Lookup after insert-or-replace in the sorted-map model. -/
theorem btreeGet_btreeInsert (d k : ℤ) (v : DaySummary) :
    ∀ m : List (ℤ × DaySummary),
      btreeGet d (btreeInsert k v m) = if d = k then some v else btreeGet d m := by
  intro m
  induction m with
  | nil => simp [btreeInsert, btreeGet]
  | cons hd t ih =>
    obtain ⟨k', w⟩ := hd
    by_cases h1 : k < k'
    · rw [show btreeInsert k v ((k', w) :: t) = (k, v) :: (k', w) :: t by
        simp [btreeInsert, h1]]
      simp only [btreeGet]
    · by_cases h2 : k = k'
      · subst h2
        rw [show btreeInsert k v ((k, w) :: t) = (k, v) :: t by
          simp [btreeInsert, h1]]
        simp only [btreeGet]
        by_cases hdk : d = k
        · simp [hdk]
        · simp [hdk]
      · rw [show btreeInsert k v ((k', w) :: t) = (k', w) :: btreeInsert k v t by
          simp [btreeInsert, h1, h2]]
        simp only [btreeGet, ih]
        by_cases hdk : d = k
        · subst hdk
          simp [h2]
        · by_cases hdk' : d = k'
          · subst hdk'
            simp [hdk]
          · simp [hdk, hdk']

/-- The source's high-update `if high > h { high } else { h }` is the
maximum. -/
theorem if_gt_eq_max (a b : ℚ) : (if b > a then b else a) = max a b := by
  rcases le_or_lt b a with h | h
  · rw [if_neg (not_lt.mpr h), max_eq_left h]
  · rw [if_pos h, max_eq_right h.le]

/-- The source's low-update `if low < l { low } else { l }` is the
minimum. -/
theorem if_lt_eq_min (a b : ℚ) : (if b < a then b else a) = min a b := by
  rcases le_or_lt a b with h | h
  · rw [if_neg (not_lt.mpr h), min_eq_left h]
  · rw [if_pos h, min_eq_right h.le]

/-- Dropping an absent right operand of `omax`. -/
theorem omax_none_right (a : Option ℚ) : omax a none = a := by
  cases a <;> rfl

/-- Dropping an absent right operand of `omin`. -/
theorem omin_none_right (a : Option ℚ) : omin a none = a := by
  cases a <;> rfl

/-- One aggregation step updates the looked-up high component as an
`omax` with the sample's `temp_max` (also in the branch that skips the
write-back, because there the stored high already is the maximum). -/
theorem step_high (offset : ℤ) (hmap : List (ℤ × DaySummary)) (e : ForecastEntry)
    (d : ℤ) :
    (btreeGet d (get_high_low_step offset hmap e)).map (fun v => v.1)
      = omax ((btreeGet d hmap).map (fun v => v.1))
          (if localDate offset e.dt = d then some e.main.temp_max else none) := by
  simp only [get_high_low_step]
  split
  · next h l r s i heq =>
    rw [if_gt_eq_max, if_lt_eq_min]
    by_cases hne : (max h e.main.temp_max, min l e.main.temp_min) = (h, l)
    · rw [if_neg (not_not_intro hne)]
      have hhigh : max h e.main.temp_max = h := congrArg Prod.fst hne
      by_cases hd : d = localDate offset e.dt
      · rw [hd, heq, if_pos rfl]
        simp only [Option.map_some', omax, hhigh]
      · rw [if_neg (fun hc => hd hc.symm), omax_none_right]
    · rw [if_pos hne, btreeGet_btreeInsert]
      by_cases hd : d = localDate offset e.dt
      · rw [if_pos hd, hd, heq, if_pos rfl]
        simp only [Option.map_some', omax]
      · rw [if_neg hd, if_neg (fun hc => hd hc.symm), omax_none_right]
  · next heq =>
    rw [btreeGet_btreeInsert]
    by_cases hd : d = localDate offset e.dt
    · rw [if_pos hd, hd, heq, if_pos rfl]
      rfl
    · rw [if_neg hd, if_neg (fun hc => hd hc.symm), omax_none_right]

/-- One aggregation step updates the looked-up low component as an `omin`
with the sample's `temp_min`. -/
theorem step_low (offset : ℤ) (hmap : List (ℤ × DaySummary)) (e : ForecastEntry)
    (d : ℤ) :
    (btreeGet d (get_high_low_step offset hmap e)).map (fun v => v.2.1)
      = omin ((btreeGet d hmap).map (fun v => v.2.1))
          (if localDate offset e.dt = d then some e.main.temp_min else none) := by
  simp only [get_high_low_step]
  split
  · next h l r s i heq =>
    rw [if_gt_eq_max, if_lt_eq_min]
    by_cases hne : (max h e.main.temp_max, min l e.main.temp_min) = (h, l)
    · rw [if_neg (not_not_intro hne)]
      have hlow : min l e.main.temp_min = l := congrArg Prod.snd hne
      by_cases hd : d = localDate offset e.dt
      · rw [hd, heq, if_pos rfl]
        simp only [Option.map_some', omin, hlow]
      · rw [if_neg (fun hc => hd hc.symm), omin_none_right]
    · rw [if_pos hne, btreeGet_btreeInsert]
      by_cases hd : d = localDate offset e.dt
      · rw [if_pos hd, hd, heq, if_pos rfl]
        simp only [Option.map_some', omin]
      · rw [if_neg hd, if_neg (fun hc => hd hc.symm), omin_none_right]
  · next heq =>
    rw [btreeGet_btreeInsert]
    by_cases hd : d = localDate offset e.dt
    · rw [if_pos hd, hd, heq, if_pos rfl]
      rfl
    · rw [if_neg hd, if_neg (fun hc => hd hc.symm), omin_none_right]

/-- Folding the aggregation over a sample list folds the high component by
`omax` over the samples of the date. -/
theorem foldl_high (offset : ℤ) (l : List ForecastEntry) (d : ℤ) :
    ∀ hmap, (btreeGet d (l.foldl (get_high_low_step offset) hmap)).map (fun v => v.1)
      = l.foldl
          (fun acc e =>
            omax acc (if localDate offset e.dt = d then some e.main.temp_max else none))
          ((btreeGet d hmap).map (fun v => v.1)) := by
  induction l with
  | nil => intro hmap; rfl
  | cons e t ih =>
    intro hmap
    rw [List.foldl_cons, List.foldl_cons, ih, step_high]

/-- Folding the aggregation over a sample list folds the low component by
`omin` over the samples of the date. -/
theorem foldl_low (offset : ℤ) (l : List ForecastEntry) (d : ℤ) :
    ∀ hmap, (btreeGet d (l.foldl (get_high_low_step offset) hmap)).map (fun v => v.2.1)
      = l.foldl
          (fun acc e =>
            omin acc (if localDate offset e.dt = d then some e.main.temp_min else none))
          ((btreeGet d hmap).map (fun v => v.2.1)) := by
  induction l with
  | nil => intro hmap; rfl
  | cons e t ih =>
    intro hmap
    rw [List.foldl_cons, List.foldl_cons, ih, step_low]

/-- C2: whenever a local date is present in the output of `get_high_low`,
its stored high is the `omax`-aggregate (i.e. the maximum) of `temp_max`
over the samples of that date, and its stored low is the `omin`-aggregate
(the minimum) of `temp_min` over those samples. -/
theorem C2_high_low (wf : WeatherForecast) (d : ℤ) (v : DaySummary)
    (h : btreeGet d (get_high_low wf) = some v) :
    some v.1 = dayHigh wf.city.timezone d wf.list ∧
      some v.2.1 = dayLow wf.city.timezone d wf.list := by
  unfold get_high_low at h
  constructor
  · have hh := foldl_high wf.city.timezone wf.list d []
    rw [h] at hh
    exact hh
  · have hl := foldl_low wf.city.timezone wf.list d []
    rw [h] at hl
    exact hl

/-- Membership after insert-or-replace: an element of the result is the
inserted pair or an element of the original map. -/
theorem mem_btreeInsert {k : ℤ} {v : DaySummary} :
    ∀ {m : List (ℤ × DaySummary)} {x : ℤ × DaySummary},
      x ∈ btreeInsert k v m → x = (k, v) ∨ x ∈ m := by
  intro m
  induction m with
  | nil =>
    intro x hx
    simp [btreeInsert] at hx
    exact Or.inl hx
  | cons hd t ih =>
    obtain ⟨k', w⟩ := hd
    intro x hx
    by_cases h1 : k < k'
    · rw [show btreeInsert k v ((k', w) :: t) = (k, v) :: (k', w) :: t by
        simp [btreeInsert, h1]] at hx
      exact List.mem_cons.mp hx
    · by_cases h2 : k = k'
      · subst h2
        rw [show btreeInsert k v ((k, w) :: t) = (k, v) :: t by
          simp [btreeInsert, h1]] at hx
        rcases List.mem_cons.mp hx with rfl | hxt
        · exact Or.inl rfl
        · exact Or.inr (List.mem_cons_of_mem _ hxt)
      · rw [show btreeInsert k v ((k', w) :: t) = (k', w) :: btreeInsert k v t by
          simp [btreeInsert, h1, h2]] at hx
        rcases List.mem_cons.mp hx with rfl | hxt
        · exact Or.inr (List.mem_cons_self _ _)
        · rcases ih hxt with rfl | hxt2
          · exact Or.inl rfl
          · exact Or.inr (List.mem_cons_of_mem _ hxt2)

/-- Insert-or-replace preserves strict ascending key order. -/
theorem pairwise_btreeInsert (k : ℤ) (v : DaySummary) :
    ∀ m : List (ℤ × DaySummary), m.Pairwise (fun a b => a.1 < b.1) →
      (btreeInsert k v m).Pairwise (fun a b => a.1 < b.1) := by
  intro m
  induction m with
  | nil =>
    intro _
    simp [btreeInsert]
  | cons hd t ih =>
    obtain ⟨k', w⟩ := hd
    intro hp
    rw [List.pairwise_cons] at hp
    obtain ⟨hall, hpt⟩ := hp
    by_cases h1 : k < k'
    · rw [show btreeInsert k v ((k', w) :: t) = (k, v) :: (k', w) :: t by
        simp [btreeInsert, h1]]
      refine List.Pairwise.cons ?_ (List.Pairwise.cons hall hpt)
      intro b hb
      rcases List.mem_cons.mp hb with rfl | hbt
      · exact h1
      · exact lt_trans h1 (hall b hbt)
    · by_cases h2 : k = k'
      · subst h2
        rw [show btreeInsert k v ((k, w) :: t) = (k, v) :: t by
          simp [btreeInsert, h1]]
        exact List.Pairwise.cons hall hpt
      · rw [show btreeInsert k v ((k', w) :: t) = (k', w) :: btreeInsert k v t by
          simp [btreeInsert, h1, h2]]
        refine List.Pairwise.cons ?_ (ih hpt)
        intro b hb
        rcases mem_btreeInsert hb with rfl | hbt
        · show k' < k
          omega
        · exact hall b hbt

/-- One aggregation step preserves strict ascending key order. -/
theorem pairwise_step (offset : ℤ) (hmap : List (ℤ × DaySummary)) (e : ForecastEntry)
    (hp : hmap.Pairwise (fun a b => a.1 < b.1)) :
    (get_high_low_step offset hmap e).Pairwise (fun a b => a.1 < b.1) := by
  simp only [get_high_low_step]
  split
  · next h l r s i heq =>
    rw [if_gt_eq_max, if_lt_eq_min]
    by_cases hne : (max h e.main.temp_max, min l e.main.temp_min) = (h, l)
    · rw [if_neg (not_not_intro hne)]
      exact hp
    · rw [if_pos hne]
      exact pairwise_btreeInsert _ _ _ hp
  · next heq => exact pairwise_btreeInsert _ _ _ hp

/-- The aggregation fold preserves strict ascending key order. -/
theorem pairwise_foldl (offset : ℤ) (l : List ForecastEntry) :
    ∀ hmap, hmap.Pairwise (fun a b => a.1 < b.1) →
      (l.foldl (get_high_low_step offset) hmap).Pairwise (fun a b => a.1 < b.1) := by
  induction l with
  | nil => intro hmap hp; exact hp
  | cons e t ih =>
    intro hmap hp
    rw [List.foldl_cons]
    exact ih _ (pairwise_step offset hmap e hp)

/-- C7: the day-summary map produced by `get_high_low` is strictly sorted by
ascending local calendar date for every input, and an empty sample list
yields the empty map. -/
theorem C7_sorted_ascending_and_empty (wf : WeatherForecast) :
    (get_high_low wf).Pairwise (fun a b => a.1 < b.1) ∧
      get_high_low ⟨[], wf.city⟩ = [] := by
  constructor
  · exact pairwise_foldl wf.city.timezone wf.list [] List.Pairwise.nil
  · rfl

/-- C2 witness: three same-day samples with `temp_max` 10, 15, 12 and
`temp_min` 2, 5, 1 give a bucket with high 15 and low 1. -/
theorem C2_high_low_witness :
    some (15 : ℚ) = dayHigh threeSampleForecast.city.timezone 0 threeSampleForecast.list ∧
      some (1 : ℚ) = dayLow threeSampleForecast.city.timezone 0 threeSampleForecast.list := by
  have hget : btreeGet 0 (get_high_low threeSampleForecast)
      = some (15, 1, 0, 0, (∅ : Finset String)) := by
    simp only [get_high_low, get_high_low_step, threeSampleForecast, mainWith, localDate,
      btreeGet, btreeInsert, List.foldl_cons, List.foldl_nil, List.map_nil,
      List.toFinset_nil]
    norm_num
    intro h
    exact absurd (by decide : (0 : ℤ) = Int.fdiv 7200 86400) h
  exact C2_high_low threeSampleForecast 0 (15, 1, 0, 0, ∅) hget

end WeatherUtil
